import Mathlib

/-!
Verification of `gymnasium/wrappers/vector/rendering.py`.

The file shallowly embeds the two grid-layout algorithms and the recording
state machine of the source file, and proves the spec's testable properties
about them.  Python float arithmetic is modelled with exact rationals, the
Python `int(n**0.5)` with the integer square root, and `np.inf` with `Option`
(`none` standing for infinity).
-/

namespace VectorRendering

/-! ## Exact-tiling layout search (`RecordVideo._get_concat_frame_shape`) -/

/-- Integer square root, modelling Python's `int(n**0.5)`.  Written as a fold
so that it evaluates by kernel reduction; `intSqrt_eq_sqrt` identifies it with
`Nat.sqrt`. -/
def intSqrt (n : ℕ) : ℕ :=
  (List.range (n + 1)).foldl (fun acc k => if k * k ≤ n then k else acc) 0

lemma foldl_range_intSqrt (n m : ℕ) :
    (List.range (m + 1)).foldl (fun acc k => if k * k ≤ n then k else acc) 0 =
      min m (Nat.sqrt n) := by
  induction m with
  | zero =>
      have h0 : List.range 1 = [0] := rfl
      simp [h0]
  | succ m ih =>
      rw [List.range_succ, List.foldl_append, ih]
      by_cases hle : (m + 1) * (m + 1) ≤ n
      · have h1 : m + 1 ≤ Nat.sqrt n := Nat.le_sqrt.2 hle
        simp only [List.foldl_cons, List.foldl_nil, hle, if_true]
        omega
      · have hs : Nat.sqrt n ≤ m := by
          by_contra hc
          push_neg at hc
          exact hle (Nat.le_sqrt.1 hc)
        simp only [List.foldl_cons, List.foldl_nil, hle, if_false]
        omega

lemma intSqrt_eq_sqrt (n : ℕ) : intSqrt n = Nat.sqrt n := by
  have h := foldl_range_intSqrt n n
  rw [intSqrt, h, Nat.min_eq_right (Nat.sqrt_le_self n)]

/-- Aspect-ratio distance of the candidate row count `rows` from `target`:
`abs((cols*w)/(rows*h) - target)` with `cols = nFrames // rows`, exactly the
quantity `diff` computed in the loop body of `_get_concat_frame_shape`. -/
def aspectDiff (target : ℚ) (nFrames h w rows : ℕ) : ℚ :=
  |((nFrames / rows * w : ℕ) : ℚ) / ((rows * h : ℕ) : ℚ) - target|

/-- One iteration of the loop of `_get_concat_frame_shape`.  The accumulator is
`(best_rows, best_cols, min_diff)`; `min_diff = none` models the initial
`np.inf` (every real `diff` satisfies `diff < np.inf`). -/
def gcfsStep (target : ℚ) (nFrames h w : ℕ) (acc : ℕ × ℕ × Option ℚ) (rows : ℕ) :
    ℕ × ℕ × Option ℚ :=
  if nFrames % rows = 0 then
    let cols := nFrames / rows
    let diff := aspectDiff target nFrames h w rows
    match acc.2.2 with
    | none => (rows, cols, some diff)
    | some minDiff => if diff < minDiff then (rows, cols, some diff) else acc
  else acc

/-- The row counts tried by the loop `for rows in range(1, int(n_frames**0.5) + 1)`. -/
def candidateRows (nFrames : ℕ) : List ℕ :=
  (List.range (intSqrt nFrames)).map (· + 1)

/-- `RecordVideo._get_concat_frame_shape`: pick, among the divisor pairs
`(rows, cols)` of `nFrames` with `rows ≤ sqrt nFrames`, the pair whose aspect
ratio `(cols*w)/(rows*h)` is closest to `videoAspect.1 / videoAspect.2`,
starting from the fallback `(1, nFrames)`. -/
def getConcatFrameShape (videoAspect : ℕ × ℕ) (nFrames h w : ℕ) : ℕ × ℕ :=
  let target : ℚ := (videoAspect.1 : ℚ) / (videoAspect.2 : ℚ)
  let acc := (candidateRows nFrames).foldl (gcfsStep target nFrames h w) (1, nFrames, none)
  (acc.1, acc.2.1)

/-- Loop invariant for `_get_concat_frame_shape`: after processing the row
counts in `seen`, either no divisor has been seen and the accumulator still
holds the initial value, or the accumulator holds a divisor of `nFrames`
realising the minimal aspect distance among the divisors seen so far. -/
def GoodAcc (target : ℚ) (nFrames h w : ℕ) (seen : List ℕ) (acc : ℕ × ℕ × Option ℚ) : Prop :=
  match acc.2.2 with
  | none => acc.1 = 1 ∧ acc.2.1 = nFrames ∧ ∀ r ∈ seen, nFrames % r ≠ 0
  | some m =>
      nFrames % acc.1 = 0 ∧ acc.2.1 = nFrames / acc.1 ∧ acc.1 ∈ seen ∧
      m = aspectDiff target nFrames h w acc.1 ∧
      ∀ r ∈ seen, nFrames % r = 0 → m ≤ aspectDiff target nFrames h w r

lemma gcfsStep_good {target : ℚ} {nFrames h w : ℕ} {seen : List ℕ}
    {acc : ℕ × ℕ × Option ℚ} (r : ℕ)
    (hacc : GoodAcc target nFrames h w seen acc) :
    GoodAcc target nFrames h w (seen ++ [r]) (gcfsStep target nFrames h w acc r) := by
  obtain ⟨br, bc, mo⟩ := acc
  by_cases hdvd : nFrames % r = 0
  · cases mo with
    | none =>
        obtain ⟨h1, h2, h3⟩ := hacc
        simp only [gcfsStep, hdvd, if_true]
        refine ⟨hdvd, rfl, by simp, rfl, ?_⟩
        intro r' hr' hdvd'
        rcases List.mem_append.1 hr' with hmem | hmem
        · exact absurd hdvd' (h3 r' hmem)
        · simp only [List.mem_singleton] at hmem
          subst hmem; exact le_refl _
    | some m =>
        obtain ⟨h1, h2, h3, h4, h5⟩ := hacc
        simp only [gcfsStep]
        rw [if_pos hdvd]
        by_cases hlt : aspectDiff target nFrames h w r < m
        · simp only [hlt, if_true]
          refine ⟨hdvd, rfl, by simp, rfl, ?_⟩
          intro r' hr' hdvd'
          rcases List.mem_append.1 hr' with hmem | hmem
          · exact le_of_lt (lt_of_lt_of_le hlt (h5 r' hmem hdvd'))
          · simp only [List.mem_singleton] at hmem
            subst hmem; exact le_refl _
        · simp only [hlt, if_false]
          refine ⟨h1, h2, List.mem_append_left _ h3, h4, ?_⟩
          intro r' hr' hdvd'
          rcases List.mem_append.1 hr' with hmem | hmem
          · exact h5 r' hmem hdvd'
          · simp only [List.mem_singleton] at hmem
            subst hmem; exact le_of_not_lt hlt
  · cases mo with
    | none =>
        obtain ⟨h1, h2, h3⟩ := hacc
        simp only [gcfsStep, hdvd, if_false]
        refine ⟨h1, h2, ?_⟩
        intro r' hr'
        rcases List.mem_append.1 hr' with hmem | hmem
        · exact h3 r' hmem
        · simp only [List.mem_singleton] at hmem
          subst hmem; exact hdvd
    | some m =>
        obtain ⟨h1, h2, h3, h4, h5⟩ := hacc
        simp only [gcfsStep, hdvd, if_false]
        refine ⟨h1, h2, List.mem_append_left _ h3, h4, ?_⟩
        intro r' hr' hdvd'
        rcases List.mem_append.1 hr' with hmem | hmem
        · exact h5 r' hmem hdvd'
        · simp only [List.mem_singleton] at hmem
          subst hmem; exact absurd hdvd' hdvd

lemma foldl_gcfsStep_good {target : ℚ} {nFrames h w : ℕ} (l : List ℕ) :
    ∀ (seen : List ℕ) (acc : ℕ × ℕ × Option ℚ),
      GoodAcc target nFrames h w seen acc →
      GoodAcc target nFrames h w (seen ++ l) (l.foldl (gcfsStep target nFrames h w) acc) := by
  induction l with
  | nil => intro seen acc hacc; simpa using hacc
  | cons r l ih =>
      intro seen acc hacc
      have hstep := gcfsStep_good r hacc
      have := ih (seen ++ [r]) _ hstep
      simpa [List.append_assoc] using this

lemma mem_candidateRows {nFrames r : ℕ} :
    r ∈ candidateRows nFrames ↔ 1 ≤ r ∧ r ≤ Nat.sqrt nFrames := by
  simp only [candidateRows, intSqrt_eq_sqrt, List.mem_map, List.mem_range]
  constructor
  · rintro ⟨i, hi, rfl⟩; omega
  · rintro ⟨h1, h2⟩; exact ⟨r - 1, by omega, by omega⟩

/-- C1: for every `nFrames ≥ 1`, positive cell size and positive target aspect
ratio, `_get_concat_frame_shape` returns `(rows, cols)` with
`rows * cols = nFrames` (in particular `cols` divides `nFrames`), and the
chosen pair's aspect ratio has minimal absolute distance from the target among
all divisor pairs with `rows ≤ sqrt nFrames`. -/
theorem getConcatFrameShape_spec (arW arH nFrames h w : ℕ)
    (hn : 1 ≤ nFrames) (hh : 1 ≤ h) (hw : 1 ≤ w) (ha1 : 1 ≤ arW) (ha2 : 1 ≤ arH) :
    (getConcatFrameShape (arW, arH) nFrames h w).1 *
        (getConcatFrameShape (arW, arH) nFrames h w).2 = nFrames ∧
    (getConcatFrameShape (arW, arH) nFrames h w).2 ∣ nFrames ∧
    ∀ rows, 1 ≤ rows → rows ≤ Nat.sqrt nFrames → nFrames % rows = 0 →
      aspectDiff ((arW : ℚ) / (arH : ℚ)) nFrames h w
          (getConcatFrameShape (arW, arH) nFrames h w).1 ≤
        aspectDiff ((arW : ℚ) / (arH : ℚ)) nFrames h w rows := by
  have hgood := @foldl_gcfsStep_good ((arW : ℚ) / (arH : ℚ)) nFrames h w
    (candidateRows nFrames) [] (1, nFrames, none)
    (by exact ⟨rfl, rfl, by simp⟩)
  simp only [List.nil_append] at hgood
  set acc := (candidateRows nFrames).foldl
    (gcfsStep ((arW : ℚ) / (arH : ℚ)) nFrames h w) (1, nFrames, none) with hacc
  have hshape : getConcatFrameShape (arW, arH) nFrames h w = (acc.1, acc.2.1) := rfl
  have hone : (1 : ℕ) ∈ candidateRows nFrames := by
    rw [mem_candidateRows]
    refine ⟨le_refl _, ?_⟩
    have := Nat.sqrt_pos.2 (Nat.lt_of_lt_of_le Nat.zero_lt_one hn)
    omega
  cases hmo : acc.2.2 with
  | none =>
      rw [GoodAcc, hmo] at hgood
      exact absurd (Nat.mod_one nFrames) (hgood.2.2 1 hone)
  | some m =>
      rw [GoodAcc, hmo] at hgood
      obtain ⟨h1, h2, h3, h4, h5⟩ := hgood
      have hdvd : acc.1 ∣ nFrames := Nat.dvd_of_mod_eq_zero h1
      have hmul : acc.1 * acc.2.1 = nFrames := by
        rw [h2]; exact Nat.mul_div_cancel' hdvd
      refine ⟨by rw [hshape]; exact hmul, ?_, ?_⟩
      · rw [hshape]
        exact ⟨acc.1, by rw [← hmul]; ring⟩
      · intro rows hr1 hr2 hrdvd
        rw [hshape]
        have := h5 rows (mem_candidateRows.2 ⟨hr1, hr2⟩) hrdvd
        rw [← h4]
        exact this

/-- Witness for C1 at Scenario A: 9 frames of size 64×64 with target aspect
1:1 tile exactly, and the layout is the 3×3 grid. -/
theorem getConcatFrameShape_spec_witness :
    (getConcatFrameShape (1, 1) 9 64 64).1 * (getConcatFrameShape (1, 1) 9 64 64).2 = 9 ∧
    getConcatFrameShape (1, 1) 9 64 64 = (3, 3) := by
  refine ⟨(getConcatFrameShape_spec 1 1 9 64 64 (by decide) (by decide) (by decide)
      (by decide) (by decide)).1, ?_⟩
  have hc : candidateRows 9 = [1, 2, 3] := by decide
  rw [getConcatFrameShape]
  rw [hc]
  norm_num [gcfsStep, aspectDiff, List.foldl]

/-! ## Padding-variant layout (`HumanRendering._render_frame`, first-frame block)

The block guarded by `if self.scaled_subenv_size is None` computes
`width_ratio = subenv_size[0] / screen_size[0]`,
`height_ratio = subenv_size[1] / screen_size[1]`, grows `(num_rows, num_cols)`
greedily until `num_rows * num_cols >= num_envs`, and then scales the cells by
`min(screen_w / (num_cols * subenv_w), screen_h / (num_rows * subenv_h))`. -/

/-- The greedy grid-growing loop
`while num_rows * num_cols < self.num_envs: ...` of
`HumanRendering._render_frame`, with explicit fuel so that it evaluates by
kernel-independent rewriting; `hrLoop_fuel_stable` shows `numEnvs` units of
fuel always suffice from the start `(1, 1)`.  The first comparison is
`row_ratio == col_ratio` with `row_ratio = num_rows * height_ratio` and
`col_ratio = num_cols * width_ratio`. -/
def hrLoop (numEnvs : ℕ) (wR hR : ℚ) : ℕ → ℕ → ℕ → ℕ × ℕ
  | 0, numRows, numCols => (numRows, numCols)
  | fuel + 1, numRows, numCols =>
    if numRows * numCols < numEnvs then
      if (numRows : ℚ) * hR = (numCols : ℚ) * wR then
        hrLoop numEnvs wR hR fuel (numRows + 1) (numCols + 1)
      else if (numRows : ℚ) * hR > (numCols : ℚ) * wR then
        hrLoop numEnvs wR hR fuel numRows (numCols + 1)
      else hrLoop numEnvs wR hR fuel (numRows + 1) numCols
    else (numRows, numCols)

/-- The cached display geometry of `HumanRendering`: grid dimensions and the
integer-truncated scaled sub-environment size. -/
structure HRLayout where
  numRows : ℕ
  numCols : ℕ
  scaledW : ℕ
  scaledH : ℕ

/-- The whole first-frame geometry block of `HumanRendering._render_frame`
(grid search, scaling factor, truncation to `int`). -/
def hrComputeLayout (numEnvs subW subH screenW screenH : ℕ) : HRLayout :=
  let widthR : ℚ := (subW : ℚ) / (screenW : ℚ)
  let heightR : ℚ := (subH : ℚ) / (screenH : ℚ)
  let p := hrLoop numEnvs widthR heightR numEnvs 1 1
  let scalingFactor : ℚ :=
    min ((screenW : ℚ) / ((p.2 : ℚ) * (subW : ℚ))) ((screenH : ℚ) / ((p.1 : ℚ) * (subH : ℚ)))
  { numRows := p.1, numCols := p.2,
    scaledW := ⌊(subW : ℚ) * scalingFactor⌋₊,
    scaledH := ⌊(subH : ℚ) * scalingFactor⌋₊ }

lemma hrLoop_ge_one (numEnvs : ℕ) (wR hR : ℚ) :
    ∀ (fuel r c : ℕ), 1 ≤ r → 1 ≤ c →
      1 ≤ (hrLoop numEnvs wR hR fuel r c).1 ∧ 1 ≤ (hrLoop numEnvs wR hR fuel r c).2 := by
  intro fuel
  induction fuel with
  | zero => intro r c h1 h2; exact ⟨h1, h2⟩
  | succ fuel ih =>
      intro r c h1 h2
      simp only [hrLoop]
      by_cases hg : r * c < numEnvs
      · rw [if_pos hg]
        by_cases he : (r : ℚ) * hR = (c : ℚ) * wR
        · rw [if_pos he]; exact ih (r + 1) (c + 1) (by omega) (by omega)
        · rw [if_neg he]
          by_cases hgt : (r : ℚ) * hR > (c : ℚ) * wR
          · rw [if_pos hgt]; exact ih r (c + 1) h1 (by omega)
          · rw [if_neg hgt]; exact ih (r + 1) c (by omega) h2
      · rw [if_neg hg]; exact ⟨h1, h2⟩

lemma le_mul_of_add_le {r c n : ℕ} (hr : 1 ≤ r) (hc : 1 ≤ c) (h : n + 1 ≤ r + c) :
    n ≤ r * c := by
  obtain ⟨a, rfl⟩ := Nat.exists_eq_add_of_le hr
  obtain ⟨b, rfl⟩ := Nat.exists_eq_add_of_le hc
  nlinarith [Nat.zero_le (a * b)]

/-- Each loop iteration strictly grows `r + c` (hence `r * c`), so
`fuel + r + c ≥ numEnvs + 1` guarantees the loop exits with
`rows * cols ≥ numEnvs`. -/
lemma hrLoop_post (numEnvs : ℕ) (wR hR : ℚ) :
    ∀ (fuel r c : ℕ), 1 ≤ r → 1 ≤ c → numEnvs + 1 ≤ fuel + r + c →
      numEnvs ≤ (hrLoop numEnvs wR hR fuel r c).1 * (hrLoop numEnvs wR hR fuel r c).2 := by
  intro fuel
  induction fuel with
  | zero =>
      intro r c h1 h2 hb
      simp only [hrLoop]
      exact le_mul_of_add_le h1 h2 (by omega)
  | succ fuel ih =>
      intro r c h1 h2 hb
      simp only [hrLoop]
      by_cases hg : r * c < numEnvs
      · rw [if_pos hg]
        by_cases he : (r : ℚ) * hR = (c : ℚ) * wR
        · rw [if_pos he]; exact ih (r + 1) (c + 1) (by omega) (by omega) (by omega)
        · rw [if_neg he]
          by_cases hgt : (r : ℚ) * hR > (c : ℚ) * wR
          · rw [if_pos hgt]; exact ih r (c + 1) h1 (by omega) (by omega)
          · rw [if_neg hgt]; exact ih (r + 1) c (by omega) h2 (by omega)
      · rw [if_neg hg]; exact (by omega : numEnvs ≤ r * c)

lemma hrLoop_succ_eq (numEnvs : ℕ) (wR hR : ℚ) :
    ∀ (fuel r c : ℕ), 1 ≤ r → 1 ≤ c → numEnvs + 1 ≤ fuel + r + c →
      hrLoop numEnvs wR hR (fuel + 1) r c = hrLoop numEnvs wR hR fuel r c := by
  intro fuel
  induction fuel with
  | zero =>
      intro r c h1 h2 hb
      simp only [hrLoop]
      rw [if_neg (Nat.not_lt.2 (le_mul_of_add_le h1 h2 (by omega)))]
  | succ fuel ih =>
      intro r c h1 h2 hb
      conv_lhs => rw [hrLoop]
      conv_rhs => rw [hrLoop]
      by_cases hg : r * c < numEnvs
      · rw [if_pos hg, if_pos hg]
        by_cases he : (r : ℚ) * hR = (c : ℚ) * wR
        · rw [if_pos he, if_pos he]; exact ih (r + 1) (c + 1) (by omega) (by omega) (by omega)
        · rw [if_neg he, if_neg he]
          by_cases hgt : (r : ℚ) * hR > (c : ℚ) * wR
          · rw [if_pos hgt, if_pos hgt]; exact ih r (c + 1) h1 (by omega) (by omega)
          · rw [if_neg hgt, if_neg hgt]; exact ih (r + 1) c (by omega) h2 (by omega)
      · rw [if_neg hg, if_neg hg]

/-- C10: the greedy grid search of `HumanRendering._render_frame` terminates
for every `numEnvs ≥ 1` and positive ratios: starting from `(1, 1)`,
`numEnvs` iterations always reach `rows * cols ≥ numEnvs`, and granting the
loop any further fuel does not change its result. -/
theorem hrLoop_fuel_stable (numEnvs : ℕ) (wR hR : ℚ)
    (hN : 1 ≤ numEnvs) (hwR : 0 < wR) (hhR : 0 < hR) :
    numEnvs ≤ (hrLoop numEnvs wR hR numEnvs 1 1).1 * (hrLoop numEnvs wR hR numEnvs 1 1).2 ∧
    ∀ fuel, numEnvs ≤ fuel → hrLoop numEnvs wR hR fuel 1 1 = hrLoop numEnvs wR hR numEnvs 1 1 := by
  constructor
  · exact hrLoop_post numEnvs wR hR numEnvs 1 1 (le_refl _) (le_refl _) (by omega)
  · intro fuel hfuel
    obtain ⟨k, rfl⟩ := Nat.exists_eq_add_of_le hfuel
    induction k with
    | zero => rfl
    | succ k ih =>
        have hstep := hrLoop_succ_eq numEnvs wR hR (numEnvs + k) 1 1
          (le_refl _) (le_refl _) (by omega)
        calc hrLoop numEnvs wR hR (numEnvs + (k + 1)) 1 1
            = hrLoop numEnvs wR hR (numEnvs + k) 1 1 := hstep
          _ = hrLoop numEnvs wR hR numEnvs 1 1 := ih (by omega)

/-- Witness for C10 at `numEnvs = 9`, ratios `64/480`: the loop exits with a
grid covering all 9 sub-environments, and fuel `12` gives the same answer as
fuel `9`. -/
theorem hrLoop_fuel_stable_witness :
    9 ≤ (hrLoop 9 (64 / 480) (64 / 480) 9 1 1).1 * (hrLoop 9 (64 / 480) (64 / 480) 9 1 1).2 ∧
    hrLoop 9 (64 / 480) (64 / 480) 12 1 1 = hrLoop 9 (64 / 480) (64 / 480) 9 1 1 := by
  have h := hrLoop_fuel_stable 9 (64 / 480) (64 / 480) (by norm_num) (by norm_num) (by norm_num)
  exact ⟨h.1, h.2 12 (by norm_num)⟩

lemma floor_scale_le {s c q : ℕ} (hs : 1 ≤ s) (hc : 1 ≤ c) (hq : 1 ≤ q) (sf : ℚ)
    (hsf0 : 0 ≤ sf) (hsf : sf ≤ (q : ℚ) / ((c : ℚ) * (s : ℚ))) :
    ⌊(s : ℚ) * sf⌋₊ * c ≤ q := by
  have hs0 : (0 : ℚ) < s := by exact_mod_cast hs
  have hc0 : (0 : ℚ) < c := by exact_mod_cast hc
  have h1 : ((⌊(s : ℚ) * sf⌋₊ : ℚ)) ≤ (s : ℚ) * sf := Nat.floor_le (by positivity)
  have h2 : (s : ℚ) * sf ≤ (q : ℚ) / (c : ℚ) := by
    calc (s : ℚ) * sf ≤ (s : ℚ) * ((q : ℚ) / ((c : ℚ) * (s : ℚ))) :=
          mul_le_mul_of_nonneg_left hsf (by positivity)
      _ = (q : ℚ) / (c : ℚ) := by field_simp; ring
  have h3 : ((⌊(s : ℚ) * sf⌋₊ * c : ℕ) : ℚ) ≤ (q : ℚ) := by
    push_cast
    calc ((⌊(s : ℚ) * sf⌋₊ : ℚ)) * (c : ℚ) ≤ ((q : ℚ) / (c : ℚ)) * (c : ℚ) :=
          mul_le_mul_of_nonneg_right (le_trans h1 h2) (by positivity)
      _ = (q : ℚ) := by field_simp
  exact_mod_cast h3

lemma floor_scale_tight {s c q : ℕ} (hs : 1 ≤ s) (hc : 1 ≤ c) :
    q < (⌊(s : ℚ) * ((q : ℚ) / ((c : ℚ) * (s : ℚ)))⌋₊ + 1) * c := by
  have hs0 : ((s : ℚ)) ≠ 0 := by positivity
  have hc0 : ((c : ℚ)) ≠ 0 := by positivity
  have he : (s : ℚ) * ((q : ℚ) / ((c : ℚ) * (s : ℚ))) = (q : ℚ) / (c : ℚ) := by
    field_simp; ring
  rw [he, Nat.floor_div_nat, Nat.floor_natCast]
  exact (Nat.div_lt_iff_lt_mul (by omega)).1 (Nat.lt_succ_self _)

/-- C2: for every `numEnvs ≥ 1`, positive native sub-frame size and positive
screen size, the padding-variant layout of `HumanRendering._render_frame`
satisfies `rows * cols ≥ numEnvs`, the scaled grid fits the screen
(`scaledW * cols ≤ screenW` and `scaledH * rows ≤ screenH`), and at least one
dimension is tight up to the integer truncation of the scaled cell size. -/
theorem hrComputeLayout_spec (numEnvs subW subH screenW screenH : ℕ)
    (hN : 1 ≤ numEnvs) (hsw : 1 ≤ subW) (hsh : 1 ≤ subH)
    (hW : 1 ≤ screenW) (hH : 1 ≤ screenH) :
    numEnvs ≤ (hrComputeLayout numEnvs subW subH screenW screenH).numRows *
        (hrComputeLayout numEnvs subW subH screenW screenH).numCols ∧
    (hrComputeLayout numEnvs subW subH screenW screenH).scaledW *
        (hrComputeLayout numEnvs subW subH screenW screenH).numCols ≤ screenW ∧
    (hrComputeLayout numEnvs subW subH screenW screenH).scaledH *
        (hrComputeLayout numEnvs subW subH screenW screenH).numRows ≤ screenH ∧
    (screenW < ((hrComputeLayout numEnvs subW subH screenW screenH).scaledW + 1) *
        (hrComputeLayout numEnvs subW subH screenW screenH).numCols ∨
     screenH < ((hrComputeLayout numEnvs subW subH screenW screenH).scaledH + 1) *
        (hrComputeLayout numEnvs subW subH screenW screenH).numRows) := by
  set p := hrLoop numEnvs ((subW : ℚ) / (screenW : ℚ)) ((subH : ℚ) / (screenH : ℚ)) numEnvs 1 1
    with hp
  obtain ⟨hp1, hp2⟩ := hrLoop_ge_one numEnvs ((subW : ℚ) / (screenW : ℚ))
    ((subH : ℚ) / (screenH : ℚ)) numEnvs 1 1 (le_refl _) (le_refl _)
  have hpN := hrLoop_post numEnvs ((subW : ℚ) / (screenW : ℚ))
    ((subH : ℚ) / (screenH : ℚ)) numEnvs 1 1 (le_refl _) (le_refl _) (by omega)
  set sfW : ℚ := (screenW : ℚ) / ((p.2 : ℚ) * (subW : ℚ)) with hsfW
  set sfH : ℚ := (screenH : ℚ) / ((p.1 : ℚ) * (subH : ℚ)) with hsfH
  have hL : hrComputeLayout numEnvs subW subH screenW screenH =
      { numRows := p.1, numCols := p.2,
        scaledW := ⌊(subW : ℚ) * min sfW sfH⌋₊,
        scaledH := ⌊(subH : ℚ) * min sfW sfH⌋₊ } := rfl
  rw [hL]
  have hp10 : (0 : ℚ) < (p.1 : ℚ) := by exact_mod_cast hp1
  have hp20 : (0 : ℚ) < (p.2 : ℚ) := by exact_mod_cast hp2
  have hsfW0 : 0 ≤ sfW := by rw [hsfW]; positivity
  have hsfH0 : 0 ≤ sfH := by rw [hsfH]; positivity
  have hmin0 : 0 ≤ min sfW sfH := le_min hsfW0 hsfH0
  refine ⟨hpN, ?_, ?_, ?_⟩
  · exact floor_scale_le hsw hp2 hW _ hmin0 (min_le_left _ _)
  · exact floor_scale_le hsh hp1 hH _ hmin0 (min_le_right _ _)
  · rcases min_choice sfW sfH with hmin | hmin
    · left
      rw [hmin, hsfW]
      exact floor_scale_tight hsw hp2
    · right
      rw [hmin, hsfH]
      exact floor_scale_tight hsh hp1

/-- Witness for C2 at Scenario B: 9 sub-environments with native 64×64 frames
on a 480×480 screen give a 3×3 grid with scaled cells fitting the screen. -/
theorem hrComputeLayout_spec_witness :
    9 ≤ (hrComputeLayout 9 64 64 480 480).numRows * (hrComputeLayout 9 64 64 480 480).numCols ∧
    (hrComputeLayout 9 64 64 480 480).scaledW * (hrComputeLayout 9 64 64 480 480).numCols ≤ 480 ∧
    (hrComputeLayout 9 64 64 480 480).scaledH * (hrComputeLayout 9 64 64 480 480).numRows ≤ 480 ∧
    (480 < ((hrComputeLayout 9 64 64 480 480).scaledW + 1) *
        (hrComputeLayout 9 64 64 480 480).numCols ∨
     480 < ((hrComputeLayout 9 64 64 480 480).scaledH + 1) *
        (hrComputeLayout 9 64 64 480 480).numRows) :=
  hrComputeLayout_spec 9 64 64 480 480 (by norm_num) (by norm_num) (by norm_num)
    (by norm_num) (by norm_num)

/-! ## Recording state machine (`RecordVideo`)

The wrapper's observable state and its operations (`reset`, `step`, `render`,
`start_recording`, `stop_recording`, `close`, and the internal
`_capture_frame`).  The wrapped environment's render results are supplied as
explicit inputs; file writes and `logger.warn` calls are recorded as events. -/

/-- Python values flowing through `RecordVideo`'s render handling: a composed
or raw frame (leaf of abstract payload type `F`), a tuple of per-environment
sub-frames, a buffered list of render results, or anything else. -/
inductive V (F : Type) where
  | arr : F → V F
  | tup : List F → V F
  | vlist : List (V F) → V F
  | other : V F

/-- Observable side effects of the recorder: a `logger.warn` call (tagged by
which warning) or a video file write (name passed to `ImageSequenceClip` plus
the exact frame buffer handed over). -/
inductive REvent (F : Type) where
  | warned : String → REvent F
  | wrote : String → List (V F) → REvent F

/-- Constructor-time configuration of `RecordVideo` as far as the state
machine reads it.  `videoLength = none` models the `float("inf")` threshold
stored for `video_length == 0`; `namePfx` is `name_prefix`; `shapeOf` models
reading `.shape` off a sub-frame; `concatFrames` abstracts the pixel
composition `_concat_frames(frame)` given the cached `frame_rows` and
`frame_cols` (its pixel content is irrelevant to the control flow). -/
structure RVConfig (F : Type) where
  videoAspect : ℕ × ℕ
  episodeTrigger : Option (ℤ → Bool)
  stepTrigger : Option (ℤ → Bool)
  videoLength : Option ℕ
  namePfx : String
  shapeOf : F → ℕ × ℕ × ℕ
  concatFrames : ℤ → ℤ → List F → F

/-- The mutable attributes of `RecordVideo` that the claims are about.
`frameRows`/`frameCols` start at `-1` exactly as in `__init__`. -/
structure RVState (F : Type) where
  recording : Bool
  recordedFrames : List (V F)
  renderHistory : List (V F)
  videoName : Option String
  frameRows : ℤ
  frameCols : ℤ
  episodeId : ℤ
  stepId : ℤ

/-- The state right after `RecordVideo.__init__`. -/
def initialState (F : Type) : RVState F :=
  { recording := false, recordedFrames := [], renderHistory := [], videoName := none,
    frameRows := -1, frameCols := -1, episodeId := -1, stepId := -1 }

/-- `RecordVideo.stop_recording` (the source asserts `self.recording` on
entry).  With zero buffered frames only a warning is emitted; otherwise the
buffer is handed to the encoder under the current video name (`f"{name}.mp4"`,
where Python formats `None` as `"None"`).  The buffer, flag and name are
always cleared afterwards; the trailing `gc.collect()` has no observable
effect here. -/
def stopRecording {F : Type} (s : RVState F) : RVState F × List (REvent F) :=
  let evs :=
    if s.recordedFrames.isEmpty then [REvent.warned ("zero frames")]
    else [REvent.wrote (s.videoName.getD ("None")) s.recordedFrames]
  ({ s with recordedFrames := [], recording := false, videoName := none }, evs)

/-- `RecordVideo.start_recording`: stop (and flush) the active recording
first, then switch recording on under the new name. -/
def startRecording {F : Type} (s : RVState F) (name : String) : RVState F × List (REvent F) :=
  let t := if s.recording then stopRecording s else (s, [])
  ({ t.1 with recording := true, videoName := some name }, t.2)

/-- The tail of `RecordVideo._capture_frame` after the buffered-list
narrowing: a tuple-shaped frame is composed (computing and caching the grid
shape on first use, from `frame[0].shape`); any other shape stops the
recording and warns.  (On an empty tuple the source would raise `IndexError`
reading `frame[0]`; `headD default` stands in for that read.) -/
def captureInstant {F : Type} [Inhabited F] (cfg : RVConfig F) (s : RVState F) (frame : V F) :
    RVState F × List (REvent F) :=
  match frame with
  | V.tup t =>
      let s2 :=
        if s.frameCols = -1 ∨ s.frameRows = -1 then
          let hwc := cfg.shapeOf (t.headD default)
          let rc := getConcatFrameShape cfg.videoAspect t.length hwc.1 hwc.2.1
          { s with frameRows := (rc.1 : ℤ), frameCols := (rc.2 : ℤ) }
        else s
      ({ s2 with recordedFrames :=
          s2.recordedFrames ++ [V.arr (cfg.concatFrames s2.frameRows s2.frameCols t)] }, [])
  | _ =>
      let t := stopRecording s
      (t.1, t.2 ++ [REvent.warned ("bad frame type")])

/-- `RecordVideo._capture_frame` (the source asserts `self.recording` on
entry).  A buffered-list result first extends `render_history` with the whole
list (`self.render_history += frame`) and then continues with its last entry
as this instant's frame; an empty list only warns. -/
def captureFrame {F : Type} [Inhabited F] (cfg : RVConfig F) (s : RVState F) (frame : V F) :
    RVState F × List (REvent F) :=
  match frame with
  | V.vlist [] => (s, [REvent.warned ("empty render list")])
  | V.vlist (x :: xs) =>
      captureInstant cfg { s with renderHistory := s.renderHistory ++ (x :: xs) }
        ((x :: xs).getLast (List.cons_ne_nil x xs))
  | f => captureInstant cfg s f

/-- `len(self.recorded_frames) > self.video_length`, where the threshold may
be the infinite one (`none`, against which every length compares `false`). -/
def lenExceeds (n : ℕ) : Option ℕ → Bool
  | none => false
  | some l => decide (l < n)

/-- The block `if self.recording: self._capture_frame(); if
len(self.recorded_frames) > self.video_length: self.stop_recording()` that
appears verbatim in both `RecordVideo.reset` and `RecordVideo.step`. -/
def captureAndTrim {F : Type} [Inhabited F] (cfg : RVConfig F) (s : RVState F) (renderRes : V F) :
    RVState F × List (REvent F) :=
  if s.recording then
    let tc := captureFrame cfg s renderRes
    if lenExceeds tc.1.recordedFrames.length cfg.videoLength then
      let ts := stopRecording tc.1
      (ts.1, tc.2 ++ ts.2)
    else tc
  else (s, [])

/-- `RecordVideo.reset`: bump `episode_id`; stop an unbounded-length active
recording; consult the episode trigger; then capture and stop once the buffer
exceeds the length limit. -/
def resetOp {F : Type} [Inhabited F] (cfg : RVConfig F) (s : RVState F) (renderRes : V F) :
    RVState F × List (REvent F) :=
  let s0 := { s with episodeId := s.episodeId + 1 }
  let t1 := if s0.recording && cfg.videoLength.isNone then stopRecording s0 else (s0, [])
  let t2 :=
    match cfg.episodeTrigger with
    | some trig =>
        if trig t1.1.episodeId then
          startRecording t1.1 (cfg.namePfx ++ "-episode-" ++ toString t1.1.episodeId)
        else (t1.1, [])
    | none => (t1.1, [])
  let t3 := captureAndTrim cfg t2.1 renderRes
  (t3.1, t1.2 ++ t2.2 ++ t3.2)

/-- `RecordVideo.step`: bump `step_id`; consult the step trigger; then capture
and stop once the buffer exceeds the length limit. -/
def stepOp {F : Type} [Inhabited F] (cfg : RVConfig F) (s : RVState F) (renderRes : V F) :
    RVState F × List (REvent F) :=
  let s0 := { s with stepId := s.stepId + 1 }
  let t2 :=
    match cfg.stepTrigger with
    | some trig =>
        if trig s0.stepId then
          startRecording s0 (cfg.namePfx ++ "-step-" ++ toString s0.stepId)
        else (s0, [])
    | none => (s0, [])
  let t3 := captureAndTrim cfg t2.1 renderRes
  (t3.1, t2.2 ++ t3.2)

/-- `RecordVideo.render`: a list-shaped render result is appended wholesale to
the frame buffer while recording; then any accumulated `render_history` is
returned in front of the result and cleared.  The `none` outcome models the
`TypeError` Python raises from `tmp_history + render_out` when the result is
not a list (the history is cleared before the exception propagates). -/
def renderOp {F : Type} (s : RVState F) (renderOut : V F) :
    RVState F × Option (V F) × List (REvent F) :=
  let s1 :=
    match renderOut with
    | V.vlist l => if s.recording then { s with recordedFrames := s.recordedFrames ++ l } else s
    | _ => s
  if s1.renderHistory.isEmpty then (s1, some renderOut, [])
  else
    let tmp := s1.renderHistory
    let s2 := { s1 with renderHistory := [] }
    match renderOut with
    | V.vlist l => (s2, some (V.vlist (tmp ++ l)), [])
    | _ => (s2, none, [])

/-- `RecordVideo.close`: stop and flush if still recording. -/
def closeOp {F : Type} (s : RVState F) : RVState F × List (REvent F) :=
  if s.recording then stopRecording s else (s, [])

/-- One public call to the wrapper, with the wrapped environment's render
result supplied as input where the call may consume one. -/
inductive ROp (F : Type) where
  | reset : V F → ROp F
  | step : V F → ROp F
  | render : V F → ROp F
  | startRec : String → ROp F
  | stopRec : ROp F
  | close : ROp F

/-- Dispatch one call (the render return value is dropped here; `renderOp`
retains it for the claims about `render`). -/
def applyOp {F : Type} [Inhabited F] (cfg : RVConfig F) (s : RVState F) : ROp F → RVState F × List (REvent F)
  | ROp.reset r => resetOp cfg s r
  | ROp.step r => stepOp cfg s r
  | ROp.render r =>
      let t := renderOp s r
      (t.1, t.2.2)
  | ROp.startRec name => startRecording s name
  | ROp.stopRec => stopRecording s
  | ROp.close => closeOp s

/-- Run a sequence of calls, concatenating the emitted events. -/
def runOps {F : Type} [Inhabited F] (cfg : RVConfig F) : RVState F → List (ROp F) → RVState F × List (REvent F)
  | s, [] => (s, [])
  | s, op :: rest =>
      let t1 := applyOp cfg s op
      let t2 := runOps cfg t1.1 rest
      (t2.1, t1.2 ++ t2.2)

/-- C3: starting a new recording while one is active first stops and flushes
the current one: the emitted events are exactly those of `stop_recording` on
the old state (when the old buffer is non-empty, a single write of the old
buffer under the old video name), and the new session begins recording under
the new name with an empty buffer, so frames buffered under one name are
never written under another. -/
theorem startRecording_flushes_previous {F : Type} (s : RVState F) (name : String)
    (h : s.recording = true) :
    (startRecording s name).1.recordedFrames = [] ∧
    (startRecording s name).1.recording = true ∧
    (startRecording s name).1.videoName = some name ∧
    (startRecording s name).2 = (stopRecording s).2 ∧
    (s.recordedFrames ≠ [] →
      (startRecording s name).2 = [REvent.wrote (s.videoName.getD ("None")) s.recordedFrames]) := by
  refine ⟨by simp [startRecording, stopRecording, h], by simp [startRecording, h],
    by simp [startRecording, h], by simp [startRecording, h], ?_⟩
  intro hne
  simp [startRecording, stopRecording, h, List.isEmpty_eq_false_iff_exists_mem]
  intro hempty
  exact absurd hempty hne

/-- A concrete recording state: one buffered frame under video name `"a"`. -/
def sampleRec : RVState ℕ :=
  { recording := true, recordedFrames := [V.arr 0], renderHistory := [],
    videoName := some ("a"), frameRows := 1, frameCols := 1, episodeId := 0, stepId := 0 }

/-- Witness for C3: starting `"b"` while `"a"` is being recorded writes the
old buffer under `"a"` and the new session starts with an empty buffer. -/
theorem startRecording_flushes_previous_witness :
    (startRecording sampleRec ("b")).1.recordedFrames = [] ∧
    (startRecording sampleRec ("b")).2 = [REvent.wrote ("a") [V.arr 0]] := by
  have h := startRecording_flushes_previous sampleRec ("b") rfl
  refine ⟨h.1, ?_⟩
  rw [h.2.2.2.2 (by simp [sampleRec])]
  rfl

/-- C4: `stop_recording` called while recording always leaves the buffer
empty, `recording = false` and the video name cleared; with zero buffered
frames it writes no file and only warns. -/
theorem stopRecording_spec {F : Type} (s : RVState F) (h : s.recording = true) :
    (stopRecording s).1.recordedFrames = [] ∧
    (stopRecording s).1.recording = false ∧
    (stopRecording s).1.videoName = none ∧
    (s.recordedFrames = [] → (stopRecording s).2 = [REvent.warned ("zero frames")]) ∧
    (s.recordedFrames = [] → ∀ n fs, REvent.wrote n fs ∉ (stopRecording s).2) := by
  refine ⟨rfl, rfl, rfl, ?_, ?_⟩
  · intro he
    simp [stopRecording, he]
  · intro he n fs
    simp [stopRecording, he]

/-- A concrete recording state with an empty buffer. -/
def sampleRecEmpty : RVState ℕ :=
  { recording := true, recordedFrames := [], renderHistory := [],
    videoName := some ("a"), frameRows := -1, frameCols := -1, episodeId := 0, stepId := 0 }

/-- Witness for C4 at a recording state with zero buffered frames: the state
returns to idle and only the zero-frames warning is emitted. -/
theorem stopRecording_spec_witness :
    (stopRecording sampleRecEmpty).1.recordedFrames = [] ∧
    (stopRecording sampleRecEmpty).1.recording = false ∧
    (stopRecording sampleRecEmpty).1.videoName = none ∧
    (stopRecording sampleRecEmpty).2 = [REvent.warned ("zero frames")] := by
  have h := stopRecording_spec sampleRecEmpty rfl
  exact ⟨h.1, h.2.1, h.2.2.1, h.2.2.2.1 rfl⟩

/-- A concrete configuration over `F = ℕ`: aspect 1:1, no triggers, unbounded
length, one-pixel frames, pixel composition abstracted to `0`. -/
def cfgInf : RVConfig ℕ :=
  { videoAspect := (1, 1), episodeTrigger := none, stepTrigger := none,
    videoLength := none, namePfx := "rl-video",
    shapeOf := fun _ => (1, 1, 3), concatFrames := fun _ _ _ => 0 }

lemma captureInstant_renderHistory {F : Type} [Inhabited F] (cfg : RVConfig F)
    (s : RVState F) (frame : V F) :
    (captureInstant cfg s frame).1.renderHistory = s.renderHistory := by
  cases frame with
  | tup t =>
      simp only [captureInstant]
      split
      · rfl
      · rfl
  | arr f => rfl
  | vlist l => rfl
  | other => rfl

/-- C6 (amended): a non-empty buffered-list render result extends the side
history with ALL of its entries (`self.render_history += frame`, the last
entry included), and processing then continues with exactly the last entry as
this instant's frame. -/
theorem captureFrame_list_spec {F : Type} [Inhabited F] (cfg : RVConfig F)
    (s : RVState F) (x : V F) (xs : List (V F)) (h : s.recording = true) :
    (captureFrame cfg s (V.vlist (x :: xs))).1.renderHistory = s.renderHistory ++ (x :: xs) ∧
    captureFrame cfg s (V.vlist (x :: xs)) =
      captureInstant cfg { s with renderHistory := s.renderHistory ++ (x :: xs) }
        ((x :: xs).getLast (List.cons_ne_nil x xs)) := by
  refine ⟨?_, rfl⟩
  show (captureInstant cfg { s with renderHistory := s.renderHistory ++ (x :: xs) }
      ((x :: xs).getLast (List.cons_ne_nil x xs))).1.renderHistory = s.renderHistory ++ (x :: xs)
  rw [captureInstant_renderHistory]

/-- Witness for C6 (amended) on a concrete recording state: both entries of
the two-element list land in the side history. -/
theorem captureFrame_list_spec_witness :
    (captureFrame cfgInf sampleRec (V.vlist [V.tup [5], V.tup [6]])).1.renderHistory =
      [V.tup [5], V.tup [6]] := by
  have h := captureFrame_list_spec cfgInf sampleRec (V.tup [5]) [V.tup [6]] rfl
  simpa [sampleRec] using h.1

/-- C6 counterexample: the claim predicts that only the non-last entries (here
`[V.tup [5]]`) are appended to the side history, but the history receives both
entries of the list. -/
theorem captureFrame_list_cex :
    ¬ ((captureFrame cfgInf sampleRec (V.vlist [V.tup [5], V.tup [6]])).1.renderHistory =
        sampleRec.renderHistory ++ [V.tup [5]]) := by
  have he : (captureFrame cfgInf sampleRec (V.vlist [V.tup [5], V.tup [6]])).1.renderHistory =
      [V.tup [5], V.tup [6]] := rfl
  rw [he]
  simp [sampleRec]

/-- `isinstance(frame, tuple)` on the model's value universe. -/
def isTupV {F : Type} : V F → Bool
  | V.tup _ => true
  | _ => false

/-- C7 (amended): a malformed (non-tuple) per-instant frame makes
`_capture_frame` call `stop_recording` — which flushes any previously
buffered frames to a file under the current video name, while the malformed
frame itself is never composed or buffered — and then warn; no exception
propagates, so the surrounding step/reset loop continues. -/
theorem captureInstant_malformed_spec {F : Type} [Inhabited F] (cfg : RVConfig F)
    (s : RVState F) (frame : V F) (hrec : s.recording = true) (htup : isTupV frame = false) :
    captureInstant cfg s frame =
      ((stopRecording s).1, (stopRecording s).2 ++ [REvent.warned ("bad frame type")]) ∧
    (captureInstant cfg s frame).1.recording = false ∧
    (captureInstant cfg s frame).1.recordedFrames = [] ∧
    (s.recordedFrames ≠ [] →
      REvent.wrote (s.videoName.getD ("None")) s.recordedFrames ∈
        (captureInstant cfg s frame).2) := by
  have key : captureInstant cfg s frame =
      ((stopRecording s).1, (stopRecording s).2 ++ [REvent.warned ("bad frame type")]) := by
    cases frame with
    | tup t => simp [isTupV] at htup
    | arr f => rfl
    | vlist l => rfl
    | other => rfl
  refine ⟨key, by rw [key]; rfl, by rw [key]; rfl, ?_⟩
  intro hne
  have hf : s.recordedFrames.isEmpty = false := by
    simpa [List.isEmpty_iff] using hne
  rw [key]
  simp [stopRecording, hf]

/-- Witness for C7 (amended) at a recording state with one buffered frame:
the stop-then-warn path runs and the old buffer is written under the old
name. -/
theorem captureInstant_malformed_spec_witness :
    captureInstant cfgInf sampleRec (V.other) =
      ((stopRecording sampleRec).1,
        (stopRecording sampleRec).2 ++ [REvent.warned ("bad frame type")]) ∧
    REvent.wrote ("a") [V.arr 0] ∈ (captureInstant cfgInf sampleRec (V.other)).2 := by
  have h := captureInstant_malformed_spec cfgInf sampleRec (V.other) rfl rfl
  refine ⟨h.1, ?_⟩
  have hm := h.2.2.2 (by simp [sampleRec])
  simpa [sampleRec] using hm

/-- C7 counterexample: with one frame already buffered, a malformed frame
does NOT stop the recording "without writing any file": `stop_recording`
flushes the buffer, so a write event occurs. -/
theorem captureFrame_malformed_cex :
    (captureFrame cfgInf sampleRec (V.other)).2 =
      [REvent.wrote ("a") [V.arr 0], REvent.warned ("bad frame type")] ∧
    ¬ (∀ n fs, REvent.wrote n fs ∉ (captureFrame cfgInf sampleRec (V.other)).2) := by
  have he : (captureFrame cfgInf sampleRec (V.other)).2 =
      [REvent.wrote ("a") [V.arr 0], REvent.warned ("bad frame type")] := rfl
  refine ⟨he, ?_⟩
  intro hno
  exact hno ("a") [V.arr 0] (by rw [he]; exact List.mem_cons_self _ _)

lemma renderOp_state_of_not_recording {F : Type} (s : RVState F) (r : V F)
    (h : s.recording = false) :
    (renderOp s r).1 = (if s.renderHistory.isEmpty then s else { s with renderHistory := [] }) := by
  have hs1 : (renderOp s r) =
      (if s.renderHistory.isEmpty then (s, some r, [])
       else
         (({ s with renderHistory := [] } : RVState F),
           (match r with
            | V.vlist l => some (V.vlist (s.renderHistory ++ l))
            | _ => none),
           ([] : List (REvent F)))) := by
    cases r with
    | vlist l =>
        simp only [renderOp, h, Bool.false_eq_true, if_false]
    | arr f => rfl
    | tup t => rfl
    | other => rfl
  rw [hs1]
  split
  · rfl
  · rfl

/-- C9 (amended): calling `render` while not recording leaves the
captured-frame buffer unchanged; the wrapped environment's render output is
returned unchanged exactly when the side history is empty; and when the side
history is non-empty, it is cleared and — for a (list-shaped) render output —
prepended to the returned output (`tmp_history + render_out`). -/
theorem renderOp_not_recording_spec {F : Type} (s : RVState F) (r : V F)
    (h : s.recording = false) :
    (renderOp s r).1.recordedFrames = s.recordedFrames ∧
    (s.renderHistory = [] → renderOp s r = (s, some r, [])) ∧
    (s.renderHistory ≠ [] → (renderOp s r).1.renderHistory = []) ∧
    (s.renderHistory ≠ [] → ∀ l : List (V F),
      (renderOp s (V.vlist l)).2.1 = some (V.vlist (s.renderHistory ++ l))) := by
  refine ⟨?_, ?_, ?_, ?_⟩
  · rw [renderOp_state_of_not_recording s r h]
    split
    · rfl
    · rfl
  · intro hh
    cases r with
    | vlist l => simp [renderOp, h, hh]
    | arr f => simp [renderOp, hh]
    | tup t => simp [renderOp, hh]
    | other => simp [renderOp, hh]
  · intro hh
    rw [renderOp_state_of_not_recording s r h]
    rw [if_neg (by simpa [List.isEmpty_iff] using hh)]
  · intro hh l
    have hne : s.renderHistory.isEmpty = false := by
      simpa [List.isEmpty_iff] using hh
    simp [renderOp, h, hne]

/-- A concrete idle state with a non-empty side history. -/
def sampleHist : RVState ℕ :=
  { recording := false, recordedFrames := [], renderHistory := [V.tup [7]],
    videoName := none, frameRows := 1, frameCols := 1, episodeId := 0, stepId := 0 }

/-- Witness for C9 (amended): at the freshly constructed state the render
output passes through unchanged and the buffer stays empty; at a concrete
idle state with a stocked side history, the history is prepended to the
returned list. -/
theorem renderOp_not_recording_spec_witness :
    (renderOp (initialState ℕ) (V.other) = (initialState ℕ, some (V.other), []) ∧
      (renderOp (initialState ℕ) (V.other)).1.recordedFrames = []) ∧
    (renderOp sampleHist (V.vlist [V.other])).2.1 =
      some (V.vlist [V.tup [7], V.other]) := by
  have h1 := renderOp_not_recording_spec (initialState ℕ) (V.other) rfl
  have h2 := renderOp_not_recording_spec sampleHist (V.vlist [V.other]) rfl
  refine ⟨⟨h1.2.1 rfl, h1.1⟩, ?_⟩
  have h3 := h2.2.2.2 (by simp [sampleHist]) [V.other]
  simpa [sampleHist] using h3

/-- The render results fed to the recorder in the C9 counterexample run:
start a recording, capture once from a two-entry buffered list (stocking the
side history), then stop. -/
def histOps : List (ROp ℕ) :=
  [ROp.startRec ("a"), ROp.step (V.vlist [V.tup [0], V.tup [1]]), ROp.stopRec]

/-- C9 counterexample: the state reached by `histOps` is not recording, yet
`render` does not return the wrapped output unchanged — the side history
left over from the finished recording is prepended. -/
theorem renderOp_not_recording_cex :
    (runOps cfgInf (initialState ℕ) histOps).1.recording = false ∧
    (renderOp (runOps cfgInf (initialState ℕ) histOps).1 (V.vlist [])).2.1 =
      some (V.vlist [V.tup [0], V.tup [1]]) ∧
    (renderOp (runOps cfgInf (initialState ℕ) histOps).1 (V.vlist [])).2.1 ≠
      some (V.vlist ([] : List (V ℕ))) := by
  have he : (renderOp (runOps cfgInf (initialState ℕ) histOps).1 (V.vlist [])).2.1 =
      some (V.vlist [V.tup [0], V.tup [1]]) := rfl
  refine ⟨rfl, he, ?_⟩
  rw [he]
  intro hc
  have h1 : (V.vlist [V.tup [0], V.tup [1]] : V ℕ) = V.vlist [] := Option.some.inj hc
  have h2 : ([V.tup [0], V.tup [1]] : List (V ℕ)) = [] := by
    injection h1
  exact absurd h2 (by simp)

/-! ## Live display frame fetch (`HumanRendering._render_frame`, dispatch) -/

/-- `HumanRendering.ACCEPTED_RENDER_MODES` (the constructor asserts
`env.render_mode` is one of these). -/
def ACCEPTED_RENDER_MODES : List String :=
  ["rgb_array", "rgb_array_list", "depth_array", "depth_array_list"]

/-- Python's `str.endswith(suffix)`, computed on the underlying character
lists (`String.endsWith` itself does not evaluate by kernel reduction). -/
def strEndsWith (s sfx : String) : Bool :=
  sfx.data.isSuffixOf s.data

/-- The frame-fetch dispatch at the top of `HumanRendering._render_frame`:
`if self.env.render_mode.endswith("_last"):` keeps only the most recent entry
of the buffered list (`subenv_renders = subenv_renders[-1]`, after asserting
the result is a list; the non-list arm is unreachable under that assert),
otherwise the render result is used directly. -/
def fetchSubenvRenders {F : Type} (renderMode : String) (renderOut : V F) : V F :=
  if strEndsWith renderMode ("_last") then
    match renderOut with
    | V.vlist l => l.getLastD (V.other)
    | v => v
  else renderOut

/-- C8 (code bug): `"rgb_array_list"` is an accepted buffered-list render
mode, yet no accepted mode ends with `"_last"`, so the last-frame branch is
dead and the whole buffered list — rather than its most recent entry — is
used as the per-environment frame set. -/
theorem fetchSubenvRenders_list_mode_bug :
    ("rgb_array_list") ∈ ACCEPTED_RENDER_MODES ∧
    (∀ m ∈ ACCEPTED_RENDER_MODES, strEndsWith m ("_last") = false) ∧
    fetchSubenvRenders ("rgb_array_list") (V.vlist [V.tup [0], V.tup [1]]) =
      V.vlist [V.tup ([0] : List ℕ), V.tup [1]] ∧
    (V.vlist [V.tup ([0] : List ℕ), V.tup [1]]) ≠ V.tup ([1] : List ℕ) := by
  refine ⟨by decide, by decide, rfl, ?_⟩
  intro hc
  exact V.noConfusion hc

/-! ## Flush-size bound (claim C5) -/

/-- Every write event in `evs` hands at most `L + 1` frames to the encoder. -/
def flushBound {F : Type} (L : ℕ) (evs : List (REvent F)) : Prop :=
  ∀ n fs, REvent.wrote n fs ∈ evs → fs.length ≤ L + 1

lemma flushBound_nil {F : Type} (L : ℕ) : flushBound L ([] : List (REvent F)) := by
  intro n fs h
  cases h

lemma flushBound_append {F : Type} (L : ℕ) {a b : List (REvent F)}
    (ha : flushBound L a) (hb : flushBound L b) : flushBound L (a ++ b) := by
  intro n fs h
  rcases List.mem_append.1 h with h | h
  · exact ha n fs h
  · exact hb n fs h

lemma flushBound_warned {F : Type} (L : ℕ) (t : String) :
    flushBound L ([REvent.warned t] : List (REvent F)) := by
  intro n fs h
  simp at h

lemma stopRecording_flushBound {F : Type} (L : ℕ) (s : RVState F)
    (h : s.recordedFrames.length ≤ L + 1) : flushBound L (stopRecording s).2 := by
  intro n fs hmem
  by_cases he : s.recordedFrames.isEmpty
  · simp [stopRecording, he] at hmem
  · simp [stopRecording, he] at hmem
    rw [hmem.2]
    exact h

lemma stopRecording_inv {F : Type} (L : ℕ) (s : RVState F)
    (h : s.recordedFrames.length ≤ L) :
    (stopRecording s).1.recordedFrames.length ≤ L ∧ flushBound L (stopRecording s).2 :=
  ⟨by simp [stopRecording], stopRecording_flushBound L s (by omega)⟩

lemma startRecording_len {F : Type} (s : RVState F) (name : String) :
    (startRecording s name).1.recordedFrames.length ≤ s.recordedFrames.length := by
  by_cases h : s.recording = true
  · simp [startRecording, h, stopRecording]
  · simp [startRecording, h]

lemma startRecording_flushBound {F : Type} (L : ℕ) (s : RVState F) (name : String)
    (h : s.recordedFrames.length ≤ L) : flushBound L (startRecording s name).2 := by
  by_cases hr : s.recording = true
  · have he : (startRecording s name).2 = (stopRecording s).2 := by simp [startRecording, hr]
    rw [he]
    exact stopRecording_flushBound L s (by omega)
  · have he : (startRecording s name).2 = [] := by simp [startRecording, hr]
    rw [he]
    exact flushBound_nil L

lemma captureInstant_frames_len {F : Type} [Inhabited F] (cfg : RVConfig F)
    (s : RVState F) (fr : V F) :
    (captureInstant cfg s fr).1.recordedFrames.length ≤ s.recordedFrames.length + 1 := by
  cases fr with
  | tup t =>
      simp only [captureInstant]
      split
      · simp
      · simp
  | arr f => simp [captureInstant, stopRecording]
  | vlist l => simp [captureInstant, stopRecording]
  | other => simp [captureInstant, stopRecording]

lemma captureInstant_flushBound {F : Type} [Inhabited F] (L : ℕ) (cfg : RVConfig F)
    (s : RVState F) (fr : V F) (h : s.recordedFrames.length ≤ L) :
    flushBound L (captureInstant cfg s fr).2 := by
  cases fr with
  | tup t =>
      have he : (captureInstant cfg s (V.tup t)).2 = [] := rfl
      rw [he]
      exact flushBound_nil L
  | arr f =>
      exact flushBound_append L (stopRecording_flushBound L s (by omega))
        (flushBound_warned L _)
  | vlist l =>
      exact flushBound_append L (stopRecording_flushBound L s (by omega))
        (flushBound_warned L _)
  | other =>
      exact flushBound_append L (stopRecording_flushBound L s (by omega))
        (flushBound_warned L _)

lemma captureFrame_frames_len {F : Type} [Inhabited F] (cfg : RVConfig F)
    (s : RVState F) (fr : V F) :
    (captureFrame cfg s fr).1.recordedFrames.length ≤ s.recordedFrames.length + 1 := by
  cases fr with
  | vlist l =>
      cases l with
      | nil => simp [captureFrame]
      | cons x xs =>
          exact captureInstant_frames_len cfg
            { s with renderHistory := s.renderHistory ++ (x :: xs) } _
  | arr f => exact captureInstant_frames_len cfg s _
  | tup t => exact captureInstant_frames_len cfg s _
  | other => exact captureInstant_frames_len cfg s _

lemma captureFrame_flushBound {F : Type} [Inhabited F] (L : ℕ) (cfg : RVConfig F)
    (s : RVState F) (fr : V F) (h : s.recordedFrames.length ≤ L) :
    flushBound L (captureFrame cfg s fr).2 := by
  cases fr with
  | vlist l =>
      cases l with
      | nil => exact flushBound_warned L _
      | cons x xs =>
          exact captureInstant_flushBound L cfg
            { s with renderHistory := s.renderHistory ++ (x :: xs) } _ h
  | arr f => exact captureInstant_flushBound L cfg s _ h
  | tup t => exact captureInstant_flushBound L cfg s _ h
  | other => exact captureInstant_flushBound L cfg s _ h

lemma captureAndTrim_inv {F : Type} [Inhabited F] (cfg : RVConfig F) (L : ℕ)
    (hL : cfg.videoLength = some L) (s : RVState F) (r : V F)
    (h : s.recordedFrames.length ≤ L) :
    (captureAndTrim cfg s r).1.recordedFrames.length ≤ L ∧
    flushBound L (captureAndTrim cfg s r).2 := by
  by_cases hr : s.recording = true
  · have hlen := captureFrame_frames_len cfg s r
    have hfb := captureFrame_flushBound L cfg s r h
    by_cases hex : lenExceeds (captureFrame cfg s r).1.recordedFrames.length cfg.videoLength = true
    · have he : captureAndTrim cfg s r =
          ((stopRecording (captureFrame cfg s r).1).1,
            (captureFrame cfg s r).2 ++ (stopRecording (captureFrame cfg s r).1).2) := by
        simp [captureAndTrim, hr, hex]
      rw [he]
      refine ⟨by simp [stopRecording], ?_⟩
      exact flushBound_append L hfb
        (stopRecording_flushBound L _ (by omega))
    · have he : captureAndTrim cfg s r = captureFrame cfg s r := by
        simp [captureAndTrim, hr, hex]
      rw [he]
      refine ⟨?_, hfb⟩
      rw [hL] at hex
      simp [lenExceeds] at hex
      omega
  · have he : captureAndTrim cfg s r = (s, []) := by
      simp [captureAndTrim, hr]
    rw [he]
    exact ⟨h, flushBound_nil L⟩

lemma renderOp_events {F : Type} (s : RVState F) (r : V F) : (renderOp s r).2.2 = [] := by
  cases r with
  | vlist l =>
      simp only [renderOp]
      split <;> split <;> rfl
  | arr f => simp only [renderOp]; split <;> rfl
  | tup t => simp only [renderOp]; split <;> rfl
  | other => simp only [renderOp]; split <;> rfl

lemma renderOp_idle_frames {F : Type} (s : RVState F) (r : V F) (h : s.recording = false) :
    (renderOp s r).1.recordedFrames = s.recordedFrames := by
  rw [renderOp_state_of_not_recording s r h]
  split
  · rfl
  · rfl

lemma applyOp_inv {F : Type} [Inhabited F] (cfg : RVConfig F) (L : ℕ)
    (hL : cfg.videoLength = some L) (s : RVState F) (op : ROp F)
    (h : s.recordedFrames.length ≤ L)
    (hrender : ∀ r, op = ROp.render r → s.recording = false) :
    (applyOp cfg s op).1.recordedFrames.length ≤ L ∧ flushBound L (applyOp cfg s op).2 := by
  cases op with
  | reset r =>
      show (resetOp cfg s r).1.recordedFrames.length ≤ L ∧ flushBound L (resetOp cfg s r).2
      have hnone : cfg.videoLength.isNone = false := by rw [hL]; rfl
      cases htrig : cfg.episodeTrigger with
      | none =>
          have he : resetOp cfg s r =
              ((captureAndTrim cfg { s with episodeId := s.episodeId + 1 } r).1,
                (captureAndTrim cfg { s with episodeId := s.episodeId + 1 } r).2) := by
            simp [resetOp, hnone, htrig]
          rw [he]
          exact captureAndTrim_inv cfg L hL _ r h
      | some trig =>
          by_cases hfire : trig (s.episodeId + 1) = true
          · have he : resetOp cfg s r =
                ((captureAndTrim cfg
                    (startRecording { s with episodeId := s.episodeId + 1 }
                      (cfg.namePfx ++ "-episode-" ++ toString (s.episodeId + 1))).1 r).1,
                  (startRecording { s with episodeId := s.episodeId + 1 }
                      (cfg.namePfx ++ "-episode-" ++ toString (s.episodeId + 1))).2 ++
                  (captureAndTrim cfg
                    (startRecording { s with episodeId := s.episodeId + 1 }
                      (cfg.namePfx ++ "-episode-" ++ toString (s.episodeId + 1))).1 r).2) := by
              simp [resetOp, hnone, htrig, hfire]
            rw [he]
            have hs1 := le_trans
              (startRecording_len { s with episodeId := s.episodeId + 1 }
                (cfg.namePfx ++ "-episode-" ++ toString (s.episodeId + 1))) h
            have hct := captureAndTrim_inv cfg L hL _ r hs1
            exact ⟨hct.1,
              flushBound_append L (startRecording_flushBound L _ _ h) hct.2⟩
          · have he : resetOp cfg s r =
                ((captureAndTrim cfg { s with episodeId := s.episodeId + 1 } r).1,
                  (captureAndTrim cfg { s with episodeId := s.episodeId + 1 } r).2) := by
              simp [resetOp, hnone, htrig, hfire]
            rw [he]
            exact captureAndTrim_inv cfg L hL _ r h
  | step r =>
      show (stepOp cfg s r).1.recordedFrames.length ≤ L ∧ flushBound L (stepOp cfg s r).2
      cases htrig : cfg.stepTrigger with
      | none =>
          have he : stepOp cfg s r =
              ((captureAndTrim cfg { s with stepId := s.stepId + 1 } r).1,
                (captureAndTrim cfg { s with stepId := s.stepId + 1 } r).2) := by
            simp [stepOp, htrig]
          rw [he]
          exact captureAndTrim_inv cfg L hL _ r h
      | some trig =>
          by_cases hfire : trig (s.stepId + 1) = true
          · have he : stepOp cfg s r =
                ((captureAndTrim cfg
                    (startRecording { s with stepId := s.stepId + 1 }
                      (cfg.namePfx ++ "-step-" ++ toString (s.stepId + 1))).1 r).1,
                  (startRecording { s with stepId := s.stepId + 1 }
                      (cfg.namePfx ++ "-step-" ++ toString (s.stepId + 1))).2 ++
                  (captureAndTrim cfg
                    (startRecording { s with stepId := s.stepId + 1 }
                      (cfg.namePfx ++ "-step-" ++ toString (s.stepId + 1))).1 r).2) := by
              simp [stepOp, htrig, hfire]
            rw [he]
            have hs1 := le_trans
              (startRecording_len { s with stepId := s.stepId + 1 }
                (cfg.namePfx ++ "-step-" ++ toString (s.stepId + 1))) h
            have hct := captureAndTrim_inv cfg L hL _ r hs1
            exact ⟨hct.1,
              flushBound_append L (startRecording_flushBound L _ _ h) hct.2⟩
          · have he : stepOp cfg s r =
                ((captureAndTrim cfg { s with stepId := s.stepId + 1 } r).1,
                  (captureAndTrim cfg { s with stepId := s.stepId + 1 } r).2) := by
              simp [stepOp, htrig, hfire]
            rw [he]
            exact captureAndTrim_inv cfg L hL _ r h
  | render r =>
      have hrec := hrender r rfl
      constructor
      · show (renderOp s r).1.recordedFrames.length ≤ L
        rw [renderOp_idle_frames s r hrec]
        exact h
      · show flushBound L (renderOp s r).2.2
        rw [renderOp_events]
        exact flushBound_nil L
  | startRec name =>
      exact ⟨le_trans (startRecording_len s name) h, startRecording_flushBound L s name h⟩
  | stopRec => exact stopRecording_inv L s h
  | close =>
      show (closeOp s).1.recordedFrames.length ≤ L ∧ flushBound L (closeOp s).2
      by_cases hr : s.recording = true
      · have he : closeOp s = stopRecording s := by simp [closeOp, hr]
        rw [he]
        exact stopRecording_inv L s h
      · have he : closeOp s = (s, []) := by simp [closeOp, hr]
        rw [he]
        exact ⟨h, flushBound_nil L⟩

/-- Guard used by `noRenderWhileRecording`: a `render` call is admissible
only while not recording; every other call always is. -/
def renderGuard {F : Type} (s : RVState F) : ROp F → Bool
  | ROp.render _ => !s.recording
  | _ => true

/-- "`render` is never called while recording" along a run: checked against
the state reached before each call. -/
def noRenderWhileRecording {F : Type} [Inhabited F] (cfg : RVConfig F) :
    RVState F → List (ROp F) → Bool
  | _, [] => true
  | s, op :: rest =>
      renderGuard s op && noRenderWhileRecording cfg (applyOp cfg s op).1 rest

lemma runOps_flushBound {F : Type} [Inhabited F] (cfg : RVConfig F) (L : ℕ)
    (hL : cfg.videoLength = some L) :
    ∀ (ops : List (ROp F)) (s : RVState F), s.recordedFrames.length ≤ L →
      noRenderWhileRecording cfg s ops = true →
      flushBound L (runOps cfg s ops).2 ∧
      (runOps cfg s ops).1.recordedFrames.length ≤ L := by
  intro ops
  induction ops with
  | nil =>
      intro s hlen _
      exact ⟨flushBound_nil L, hlen⟩
  | cons op rest ih =>
      intro s hlen hnr
      have hnr' : (renderGuard s op &&
          noRenderWhileRecording cfg (applyOp cfg s op).1 rest) = true := hnr
      rw [Bool.and_eq_true] at hnr'
      obtain ⟨hop, hrest⟩ := hnr'
      have h1 := applyOp_inv cfg L hL s op hlen (by
        intro r hre
        subst hre
        simpa [renderGuard] using hop)
      have h2 := ih (applyOp cfg s op).1 h1.1 hrest
      exact ⟨flushBound_append L h1.2 h2.1, h2.2⟩

/-- C5 (amended): with a finite configured clip length `L > 0`, every flush
along a run of `reset`/`step`/`render`/`start_recording`/`stop_recording`/
`close` calls hands at most `L + 1` frames to the encoder, PROVIDED `render`
is never called while recording — a `render` call in a buffered-list mode
extends the frame buffer without any length check, which is what breaks the
unconditional claim. -/
theorem recordVideo_flush_bound {F : Type} [Inhabited F] (cfg : RVConfig F) (L : ℕ)
    (hL : cfg.videoLength = some L) (hL0 : 0 < L) (ops : List (ROp F))
    (hnr : noRenderWhileRecording cfg (initialState F) ops = true) :
    ∀ n fs, REvent.wrote n fs ∈ (runOps cfg (initialState F) ops).2 → fs.length ≤ L + 1 :=
  (runOps_flushBound cfg L hL ops (initialState F) (by simp [initialState]) hnr).1

/-- A clip-length-1 configuration over `F = ℕ`. -/
def cfgOne : RVConfig ℕ :=
  { cfgInf with videoLength := some 1 }

/-- The calls of the C5 witness run: record one captured frame, then stop. -/
def wOps : List (ROp ℕ) :=
  [ROp.startRec ("a"), ROp.step (V.tup [5]), ROp.stopRec]

/-- Witness for C5 (amended): in a render-free run with clip length 1, the
single flushed buffer obeys the bound. -/
theorem recordVideo_flush_bound_witness :
    ([V.arr (0 : ℕ)] : List (V ℕ)).length ≤ 1 + 1 := by
  have hev : (runOps cfgOne (initialState ℕ) wOps).2 = [REvent.wrote ("a") [V.arr 0]] := rfl
  exact recordVideo_flush_bound cfgOne 1 rfl (by decide) wOps (by rfl) ("a") [V.arr 0]
    (by rw [hev]; exact List.mem_cons_self _ _)

lemma runOps_cons {F : Type} [Inhabited F] (cfg : RVConfig F) (s : RVState F)
    (op : ROp F) (rest : List (ROp F)) :
    runOps cfg s (op :: rest) =
      ((runOps cfg (applyOp cfg s op).1 rest).1,
        (applyOp cfg s op).2 ++ (runOps cfg (applyOp cfg s op).1 rest).2) := rfl

lemma gcfs_one : getConcatFrameShape (1, 1) 1 1 1 = (1, 1) := by
  have hc : candidateRows 1 = [1] := by decide
  rw [getConcatFrameShape]
  rw [hc]
  norm_num [gcfsStep, aspectDiff, List.foldl]

/-- The configuration of the C5 counterexample: clip length 1, every episode
triggers a recording. -/
def cfgCexC5 : RVConfig ℕ :=
  { cfgInf with videoLength := some 1, episodeTrigger := some (fun _ => true) }

/-- The run of the C5 counterexample: `reset` starts a recording and captures
one frame, `render` (buffered-list mode) pours three more entries into the
frame buffer unchecked, and the next `step` flushes all five frames. -/
def cexFlushOps : List (ROp ℕ) :=
  [ROp.reset (V.tup [5]), ROp.render (V.vlist [V.other, V.other, V.other]),
   ROp.step (V.tup [5])]

/-- State after the `reset` of the C5 counterexample run. -/
def stA : RVState ℕ :=
  { recording := true, recordedFrames := [V.arr 0], renderHistory := [],
    videoName := some ("rl-video-episode-0"), frameRows := 1, frameCols := 1,
    episodeId := 0, stepId := -1 }

/-- State after the `render` of the C5 counterexample run. -/
def stB : RVState ℕ :=
  { recording := true, recordedFrames := [V.arr 0, V.other, V.other, V.other],
    renderHistory := [], videoName := some ("rl-video-episode-0"), frameRows := 1,
    frameCols := 1, episodeId := 0, stepId := -1 }

/-- Pre-capture state inside the `reset` of the C5 counterexample run. -/
def st0 : RVState ℕ :=
  { recording := true, recordedFrames := [], renderHistory := [],
    videoName := some ("rl-video-episode-0"), frameRows := -1, frameCols := -1,
    episodeId := 0, stepId := -1 }

lemma gcfs_one_fst : (getConcatFrameShape (1, 1) 1 1 1).1 = 1 := by rw [gcfs_one]

lemma gcfs_one_snd : (getConcatFrameShape (1, 1) 1 1 1).2 = 1 := by rw [gcfs_one]

lemma cex_captureStep : captureFrame cfgCexC5 st0 (V.tup [5]) = (stA, []) := by
  show captureInstant cfgCexC5 st0 (V.tup [5]) = (stA, [])
  norm_num [captureInstant, cfgCexC5, cfgInf, st0, stA, gcfs_one_fst, gcfs_one_snd,
    -Prod.mk_one_one]

lemma cex_resetStep :
    applyOp cfgCexC5 (initialState ℕ) (ROp.reset (V.tup [5])) = (stA, []) := by
  have h1 : applyOp cfgCexC5 (initialState ℕ) (ROp.reset (V.tup [5])) =
      captureAndTrim cfgCexC5 st0 (V.tup [5]) := rfl
  rw [h1, captureAndTrim, cex_captureStep]
  norm_num [st0, stA, lenExceeds, cfgCexC5, cfgInf]

/-- C5 counterexample: with clip length `L = 1`, the run `cexFlushOps` (only
`reset`, `render` and `step` calls) flushes five frames at once — `render`
while recording extends the buffer with no length check — exceeding the
claimed bound `L + 1 = 2`. -/
theorem recordVideo_flush_bound_cex :
    cfgCexC5.videoLength = some 1 ∧
    ¬ (∀ n fs, REvent.wrote n fs ∈ (runOps cfgCexC5 (initialState ℕ) cexFlushOps).2 →
        fs.length ≤ 1 + 1) := by
  refine ⟨rfl, ?_⟩
  suffices hmem : REvent.wrote ("rl-video-episode-0")
      [V.arr 0, V.other, V.other, V.other, V.arr 0] ∈
      (runOps cfgCexC5 (initialState ℕ) cexFlushOps).2 by
    intro hall
    have := hall _ _ hmem
    simp at this
  have h2 : applyOp cfgCexC5 stA (ROp.render (V.vlist [V.other, V.other, V.other])) =
      (stB, []) := rfl
  have h3 : applyOp cfgCexC5 stB (ROp.step (V.tup [5])) =
      ({ recording := false, recordedFrames := [], renderHistory := [],
          videoName := none, frameRows := 1, frameCols := 1, episodeId := 0, stepId := 0 },
        [REvent.wrote ("rl-video-episode-0")
          [V.arr 0, V.other, V.other, V.other, V.arr 0]]) := rfl
  have hev : (runOps cfgCexC5 (initialState ℕ) cexFlushOps).2 =
      [REvent.wrote ("rl-video-episode-0") [V.arr 0, V.other, V.other, V.other, V.arr 0]] := by
    show (runOps cfgCexC5 (initialState ℕ)
        (ROp.reset (V.tup [5]) :: ROp.render (V.vlist [V.other, V.other, V.other]) ::
          ROp.step (V.tup [5]) :: [])).2 = _
    rw [runOps_cons, cex_resetStep]
    dsimp only
    rw [runOps_cons, h2]
    dsimp only
    rw [runOps_cons, h3]
    dsimp only
    rfl
  rw [hev]
  exact List.mem_cons_self _ _

end VectorRendering
